import Mathlib

/-!
Verification of the Soda Business Manager ledger (src/App.py and src/app.py).

The two source files are the same Streamlit application over two stores
(sqlite3 and psycopg2); their ledger handlers are line-for-line identical in
behaviour, and src/app.py additionally carries the role-based page gating.
This file shallowly embeds the persisted schema and the mutating page
handlers:

* SQL `REAL`/`FLOAT` money columns are modelled exactly as rationals.
* Every table is a list of rows; SQL `INSERT` appends at the end,
  `UPDATE ... WHERE id=?` maps over the rows, `DELETE ... WHERE id=?` filters.
* `AUTOINCREMENT`/`SERIAL` primary keys are modelled with per-table
  next-id counters.
* Each `conn.commit()` in a handler yields a committed snapshot; the
  Record Sale handler commits three times (customer step, sale insert plus
  stock update, activity log), which `recordSale` returns explicitly.
* `st.error(...)` followed by `st.stop()` aborts the handler before any
  write, which the embedding models as a failure outcome with the
  database unchanged.

The `Product.init_stock` field is a ghost field: it records the
`Initial Stock` entered when the product row was created, is never read by
any operation, and exists only so the stock invariant can be stated.
-/

/-- The dict stored in `st.session_state.user`: `{"id": ..., "username": ..., "role": ...}`. -/
structure SessionUser where
  id : Nat
  username : String
  role : String
deriving DecidableEq

/-- A row of `products` (src/App.py lines 30-37 plus the migrated audit columns).
`init_stock` is a ghost field, see the file comment. -/
structure Product where
  id : Nat
  flavor_id : Option Nat
  cost_price : ℚ
  selling_price : ℚ
  stock : Int
  created_by : String
  created_at : String
  updated_by : Option String := none
  updated_at : Option String := none
  init_stock : Int
deriving DecidableEq

/-- A row of `stock_additions` (src/App.py lines 39-46 plus audit columns). -/
structure StockAddition where
  id : Nat
  product_id : Nat
  date : String
  quantity : Int
  batch_cost : ℚ
  created_by : String
  created_at : String
deriving DecidableEq

/-- A row of `customers` (src/App.py lines 48-54 plus audit columns). -/
structure Customer where
  id : Nat
  name : String
  phone : Option String := none
  shop_name : Option String := none
  area : Option String := none
  created_by : Option String := none
  created_at : Option String := none
  updated_by : Option String := none
  updated_at : Option String := none
deriving DecidableEq

/-- A row of `sales` (src/App.py lines 56-65 plus audit columns). -/
structure Sale where
  id : Nat
  product_id : Nat
  date : String
  quantity : Int
  revenue : ℚ
  customer_id : Nat
  created_by : String
  created_at : String
deriving DecidableEq

/-- A row of `investments` (src/App.py lines 67-72). -/
structure Investment where
  id : Nat
  date : String
  amount : ℚ
  note : Option String
deriving DecidableEq

/-- A row of `activity_logs` (src/App.py lines 82-87). -/
structure ActivityRow where
  id : Nat
  username : String
  action : String
  date : String
deriving DecidableEq

/-- The persisted store: the tables of `soda_business.db` relevant to the
claims (the `flavors` and `users` tables are never read by them), and the
per-table autoincrement counters. -/
structure DB where
  products : List Product
  stock_additions : List StockAddition
  customers : List Customer
  sales : List Sale
  investments : List Investment
  activity_logs : List ActivityRow
  next_product_id : Nat := 1
  next_stock_id : Nat := 1
  next_customer_id : Nat := 1
  next_sale_id : Nat := 1
  next_investment_id : Nat := 1
  next_log_id : Nat := 1
deriving DecidableEq

/-- The freshly created store: all tables empty. -/
def DB.empty : DB :=
  { products := [], stock_additions := [], customers := [], sales := [],
    investments := [], activity_logs := [] }

/-- The pattern `x.strip() if x else None`: the empty string becomes SQL NULL, any other
string is stripped (src/App.py lines 712-714 and analogues). -/
def optText (s : String) : Option String :=
  if s = "" then none else some s.trim

/-- The helper `log_activity(action)` (src/App.py lines 233-249, src/app.py lines
219-235): when `st.session_state` has no user the function returns without
touching the store; otherwise it inserts one `activity_logs` row with the
session username, the action text and today's date, and commits. -/
def log_activity (user : Option SessionUser) (action today : String) (db : DB) : DB :=
  match user with
  | none => db
  | some u =>
      { db with
        activity_logs := db.activity_logs ++
          [{ id := db.next_log_id, username := u.username, action := action, date := today }],
        next_log_id := db.next_log_id + 1 }

/-- The `Add Product` form handler (src/App.py lines 467-474): inserts the
product row with the entered initial stock and stamps `created_by/at`,
commits, then logs the activity. `flavorName` is the joined
`flavor_name` shown in the log message. -/
def addProduct (db : DB) (u : SessionUser) (today : String) (flavorId : Nat)
    (flavorName : String) (cost selling : ℚ) (initStock : Int) : DB :=
  let db1 : DB :=
    { db with
      products := db.products ++
        [{ id := db.next_product_id, flavor_id := some flavorId, cost_price := cost,
           selling_price := selling, stock := initStock, created_by := u.username,
           created_at := today, init_stock := initStock }],
      next_product_id := db.next_product_id + 1 }
  log_activity (some u) (s!"Added product for flavor {flavorName}") today db1

/-- The `Update Product` form handler (src/App.py lines 507-515): overwrites
flavor, prices and the stock value of the row, stamps `updated_by/at`,
commits, then logs. -/
def editProduct (db : DB) (u : SessionUser) (today : String) (pid flavorId : Nat)
    (flavorName : String) (cost selling : ℚ) (stock : Int) : DB :=
  let db1 : DB :=
    { db with
      products := db.products.map fun p =>
        if p.id == pid then
          { p with flavor_id := some flavorId, cost_price := cost, selling_price := selling,
                   stock := stock, updated_by := some u.username, updated_at := some today }
        else p }
  log_activity (some u) (s!"Updated product {flavorName}") today db1

/-- The `Add Stock` form handler (src/App.py lines 555-562): computes
`batch_cost = float(qty) * prod_cost_price` from the cost price of the
selected product record `sel`, inserts the `stock_additions` row, runs
`UPDATE products SET stock = stock + ? WHERE id=?`, commits, then logs.
There is no quantity validation in the handler. -/
def addStock (db : DB) (u : SessionUser) (today : String) (sel : Product)
    (flavorName d : String) (qty : Int) : DB :=
  let batch_cost : ℚ := qty * sel.cost_price
  let db1 : DB :=
    { db with
      stock_additions := db.stock_additions ++
        [{ id := db.next_stock_id, product_id := sel.id, date := d, quantity := qty,
           batch_cost := batch_cost, created_by := u.username, created_at := today }],
      next_stock_id := db.next_stock_id + 1 }
  let db2 : DB :=
    { db1 with
      products := db1.products.map fun p =>
        if p.id == sel.id then { p with stock := p.stock + qty } else p }
  log_activity (some u) (s!"Added {qty} stock to {flavorName}") today db2

/-- A `st.number_input` with `min_value=1` (src/App.py line 542): the widget
never yields a value below its minimum. -/
def numberInputClamp (minVal v : Int) : Int := max minVal v

/-- The Add Stock page: the submitted quantity always passes through the
`min_value=1` number input before the handler runs. -/
def addStockPage (db : DB) (u : SessionUser) (today : String) (sel : Product)
    (flavorName d : String) (raw : Int) : DB :=
  addStock db u today sel flavorName d (numberInputClamp 1 raw)

/-- The customer choice in the Record Sale page: the `➕ Add New Customer`
sentinel with the four new-customer text inputs, or an existing customer id
with the four prefilled (and possibly edited) text inputs. -/
inductive CustChoice where
  | addNew (name phone shop area : String)
  | existing (cid : Nat) (name phone shop area : String)

/-- The failure outcomes of the Record Sale handler: `InsufficientStock`
covers both `st.error` guards (`"Selected product is out of stock."`,
src/App.py line 611, and `"Not enough stock."`, line 692);
`ValidationError` is `"Customer name is required."` (line 700). Each is
followed by `st.stop()`, before any write. -/
inductive SaleError where
  | InsufficientStock
  | ValidationError
deriving DecidableEq

/-- The outcome of the Record Sale handler. On success the three committed
snapshots are returned in commit order: after the customer commit
(src/App.py line 719 or 742), after the sale-insert plus stock-update
commit (line 785), and after the `log_activity` commit (line 789). -/
inductive SaleResult where
  | failure (err : SaleError)
  | success (afterCustomer afterSale final : DB)

/-- The new-customer INSERT of the Record Sale handler (src/App.py lines
704-719), including its `conn.commit()`. -/
def custStepNew (db : DB) (u : SessionUser) (today name phone shop area : String) : DB :=
  { db with
    customers := db.customers ++
      [{ id := db.next_customer_id, name := name.trim, phone := optText phone,
         shop_name := optText shop, area := optText area,
         created_by := some u.username, created_at := some today }],
    next_customer_id := db.next_customer_id + 1 }

/-- The existing-customer UPDATE of the Record Sale handler (src/App.py
lines 727-742), including its `conn.commit()`. -/
def custStepExisting (db : DB) (u : SessionUser) (today : String) (cid : Nat)
    (name phone shop area : String) : DB :=
  { db with
    customers := db.customers.map fun cr =>
      if cr.id == cid then
        { cr with name := name.trim, phone := optText phone, shop_name := optText shop,
                  area := optText area, updated_by := some u.username,
                  updated_at := some today }
      else cr }

/-- The sale INSERT and `UPDATE products SET stock = stock - ?` of the
Record Sale handler (src/App.py lines 747-785), with
`revenue = int(qty) * float(sel["selling_price"])`; both statements share
the single `conn.commit()` at line 785. -/
def saleStep (db : DB) (u : SessionUser) (today : String) (sel : Product)
    (d : String) (qty : Int) (customer_id : Nat) : DB :=
  let revenue : ℚ := qty * sel.selling_price
  let db1 : DB :=
    { db with
      sales := db.sales ++
        [{ id := db.next_sale_id, product_id := sel.id, date := d, quantity := qty,
           revenue := revenue, customer_id := customer_id, created_by := u.username,
           created_at := today }],
      next_sale_id := db.next_sale_id + 1 }
  { db1 with
    products := db1.products.map fun p =>
      if p.id == sel.id then { p with stock := p.stock - qty } else p }

/-- The Record Sale page (src/App.py lines 589-794) for the selected product
record `sel`: the out-of-stock guard (line 610), the quantity guard
(line 691), the customer branch, the revenue computation, the sale insert
and stock update, and the activity log, with the three commits reported in
order. -/
def recordSale (db : DB) (u : SessionUser) (today : String) (sel : Product)
    (flavorName d : String) (qty : Int) (cust : CustChoice) : SaleResult :=
  if sel.stock ≤ 0 then .failure .InsufficientStock
  else if qty > sel.stock then .failure .InsufficientStock
  else
    match cust with
    | .addNew name phone shop area =>
        if name.trim = "" then .failure .ValidationError
        else
          let db1 : DB := custStepNew db u today name phone shop area
          let customer_id := db.next_customer_id
          let db3 : DB := saleStep db1 u today sel d qty customer_id
          .success db1 db3 (log_activity (some u) (s!"Sold {qty} of {flavorName}") today db3)
    | .existing cid name phone shop area =>
        let db1 : DB := custStepExisting db u today cid name phone shop area
        let db3 : DB := saleStep db1 u today sel d qty cid
        .success db1 db3 (log_activity (some u) (s!"Sold {qty} of {flavorName}") today db3)

/-- The database outcome of a Record Sale submission: on failure the
`st.stop()` fires before any write, so the store is unchanged; on success
the final committed state stands. -/
def recordSaleStep (db : DB) (u : SessionUser) (today : String) (sel : Product)
    (flavorName d : String) (qty : Int) (cust : CustChoice) : DB × Option SaleError :=
  match recordSale db u today sel flavorName d qty cust with
  | .failure e => (db, some e)
  | .success _ _ final => (final, none)

/-- The sequence of committed snapshots of a successful Record Sale. -/
def recordSaleCommits (db : DB) (u : SessionUser) (today : String) (sel : Product)
    (flavorName d : String) (qty : Int) (cust : CustChoice) : Option (DB × DB × DB) :=
  match recordSale db u today sel flavorName d qty cust with
  | .failure _ => none
  | .success a b f => some (a, b, f)

/-- The `Add Investment` form handler (src/App.py lines 830-834). -/
def addInvestment (db : DB) (today : String) (amount : ℚ) (note : String) : DB :=
  { db with
    investments := db.investments ++
      [{ id := db.next_investment_id, date := today, amount := amount,
         note := optText note }],
    next_investment_id := db.next_investment_id + 1 }

/-- The `Add Customer` form handler (src/App.py lines 944-951): inserts and
logs only when the name is non-blank (`if name and name.strip()`). -/
def addCustomer (db : DB) (u : SessionUser) (today name phone shop area : String) : DB :=
  if name.trim = "" then db
  else
    let db1 : DB :=
      { db with
        customers := db.customers ++
          [{ id := db.next_customer_id, name := name.trim, phone := optText phone,
             shop_name := optText shop, area := optText area,
             created_by := some u.username, created_at := some today }],
        next_customer_id := db.next_customer_id + 1 }
    log_activity (some u) (s!"Added customer {name}") today db1

/-- The ledger operations reachable from the pages, replayable as data. The
`addStock` and `recordSale` pages select the product from a dropdown of
existing rows, so their wrappers look the id up and do nothing when it is
absent. -/
inductive Op where
  | addProduct (u : SessionUser) (today : String) (flavorId : Nat) (flavorName : String)
      (cost selling : ℚ) (initStock : Int)
  | editProduct (u : SessionUser) (today : String) (pid flavorId : Nat) (flavorName : String)
      (cost selling : ℚ) (stock : Int)
  | deleteProduct (pid : Nat)
  | addStock (u : SessionUser) (today : String) (pid : Nat) (flavorName d : String) (qty : Int)
  | recordSale (u : SessionUser) (today : String) (pid : Nat) (flavorName d : String)
      (qty : Int) (cust : CustChoice)
  | addInvestment (today : String) (amount : ℚ) (note : String)
  | addCustomer (u : SessionUser) (today name phone shop area : String)
  | deleteCustomer (cid : Nat)

/-- Applying one operation to the store. `deleteProduct` and
`deleteCustomer` are the 🗑 buttons (src/App.py lines 489 and 968): plain
row deletion, no cascade. -/
def applyOp (op : Op) (db : DB) : DB :=
  match op with
  | .addProduct u today fid fname cost selling initStock =>
      addProduct db u today fid fname cost selling initStock
  | .editProduct u today pid fid fname cost selling stock =>
      editProduct db u today pid fid fname cost selling stock
  | .deleteProduct pid =>
      { db with products := db.products.filter fun p => !(p.id == pid) }
  | .addStock u today pid fname d qty =>
      match db.products.find? (fun p => p.id == pid) with
      | none => db
      | some sel => addStock db u today sel fname d qty
  | .recordSale u today pid fname d qty cust =>
      match db.products.find? (fun p => p.id == pid) with
      | none => db
      | some sel => (recordSaleStep db u today sel fname d qty cust).1
  | .addInvestment today amount note => addInvestment db today amount note
  | .addCustomer u today name phone shop area => addCustomer db u today name phone shop area
  | .deleteCustomer cid =>
      { db with customers := db.customers.filter fun cr => !(cr.id == cid) }

/-- The three operations named by the stock invariant claim. -/
def Op.isCore : Op → Bool
  | .addProduct .. => true
  | .addStock .. => true
  | .recordSale .. => true
  | _ => false

/-- Replaying a sequence of page submissions. -/
def applyOps (db : DB) (ops : List Op) : DB :=
  ops.foldl (fun d op => applyOp op d) db

/-- Dashboard `total_stock` (src/App.py line 363): the sum of the stock
column over all products. -/
def total_stock (db : DB) : Int := (db.products.map (fun p => p.stock)).sum

/-- Dashboard `total_revenue` (src/App.py lines 364-365):
`SELECT COALESCE(SUM(revenue), 0) FROM sales`. -/
def total_revenue (db : DB) : ℚ := (db.sales.map (fun s => s.revenue)).sum

/-- Dashboard `total_investment` (src/App.py lines 366-367):
`SELECT COALESCE(SUM(amount), 0) FROM investments`. -/
def total_investment (db : DB) : ℚ := (db.investments.map (fun i => i.amount)).sum

/-- Metric `cost_used` (src/App.py lines 370-374 and 924-928):
`SELECT COALESCE(SUM(batch_cost), 0) FROM stock_additions`. -/
def cost_used (db : DB) : ℚ := (db.stock_additions.map (fun sa => sa.batch_cost)).sum

/-- Dashboard `remaining_investment = total_investment - cost_used`
(src/App.py line 376). -/
def remaining_investment (db : DB) : ℚ := total_investment db - cost_used db

/-- Dashboard `profit = total_revenue - cost_used` (src/App.py line 377). -/
def profit (db : DB) : ℚ := total_revenue db - cost_used db

/-- Financial Summary `revenue = sales["revenue"].sum() if not sales.empty
else 0` (src/App.py line 922): the pandas sum with an explicit empty-frame
fallback. -/
def financial_summary_revenue (db : DB) : ℚ :=
  if db.sales = [] then 0 else (db.sales.map (fun s => s.revenue)).sum

/-- Financial Summary `profit = revenue - cost_used` (src/App.py line 929). -/
def financial_summary_profit (db : DB) : ℚ := financial_summary_revenue db - cost_used db

/-- The Reports page sales query (src/App.py lines 845-851):
`FROM sales s JOIN products p ON s.product_id = p.id` — an inner join, so a
sale row is kept once per product row whose id matches (exactly once under
primary-key uniqueness, and dropped when its product was deleted). The
further `LEFT JOIN`s to `flavors` and `customers` are on primary keys and
do not change row multiplicity; the rollup reads only `s.date` and
`s.revenue`, so the joined row is represented by the sale itself. -/
def reportJoinedSales (db : DB) : List Sale :=
  db.sales.flatMap fun s =>
    (db.products.filter fun p => p.id == s.product_id).map fun _ => s

/-- The key `pd.to_period("M")` computes from the stored ISO `date.isoformat()` string:
the `YYYY-MM` invariant part. Marked irreducible: no proof below depends on
the body, and unfolding `String.take` chokes the unifier. -/
@[irreducible] def monthOf (d : String) : String := d.take 7

/-- The month keys of the Reports monthly table: sale months and
stock-addition months (`pd.concat(..., axis=1)` takes their union;
src/App.py lines 859-876). -/
def reportMonths (db : DB) : List String :=
  (((reportJoinedSales db).map fun s => monthOf s.date) ++
    (db.stock_additions.map fun sa => monthOf sa.date)).dedup

/-- Rollup `monthly_revenue` for one month key (src/App.py line 873):
the revenue sum of the joined sales in that calendar month (months with no
sales are filled with 0 by the concat). -/
def monthly_revenue (db : DB) (m : String) : ℚ :=
  (((reportJoinedSales db).filter fun s => monthOf s.date == m).map fun s => s.revenue).sum

/-- The sum of the Revenue column over every row of the monthly table. -/
def monthly_revenue_total (db : DB) : ℚ :=
  ((reportMonths db).map fun m => monthly_revenue db m).sum

/-- List `user_pages` (src/app.py line 302): the page subset offered to
non-admin users. -/
def user_pages : List String := ["Dashboard", "Record Sale", "Customers"]

/-- List `admin_pages` (src/app.py lines 305-316). -/
def admin_pages : List String :=
  ["Dashboard", "Flavors", "Products", "Add Stock", "Record Sale",
   "Company Investment", "Reports & Graphs", "Financial Summary",
   "Customers", "Admin Activity"]

/-- Selection `pages = admin_pages if role == "admin" else user_pages`
(src/app.py line 318). -/
def pagesFor (role : String) : List String :=
  if role = "admin" then admin_pages else user_pages

/-- The hard page gate `if role != "admin" and page not in user_pages:
st.error("Access Denied 🚫"); st.stop()` (src/app.py lines 326-328):
a page renders only when this is true. -/
def navAccessAllowed (role page : String) : Bool :=
  role == "admin" || user_pages.contains page

/-- The Admin Activity page's own role check, present in both files
(src/App.py lines 996-998, src/app.py lines 982-984). -/
def adminActivityAllowed (role : String) : Bool := role == "admin"

/-- The dashboard metrics rendered for a role (src/app.py lines 351-366):
non-admin users get the single `Total Stock` metric, admin gets all five. -/
def dashboardMetricsShown (role : String) : List String :=
  if role = "admin" then
    ["Total Stock", "Revenue", "Cost Used (Production)", "Remaining Investment",
     "Profit / Loss"]
  else ["Total Stock"]

/-- Sum of the quantity column of the stock additions of one product. -/
def addsOf (l : List StockAddition) (pid : Nat) : Int :=
  ((l.filter fun sa => sa.product_id == pid).map fun sa => sa.quantity).sum

/-- Sum of the quantity column of the sales of one product. -/
def salesOf (l : List Sale) (pid : Nat) : Int :=
  ((l.filter fun s => s.product_id == pid).map fun s => s.quantity).sum

/-- Per-product `Σ stock_additions.quantity`. -/
def addsSum (db : DB) (pid : Nat) : Int := addsOf db.stock_additions pid

/-- Per-product `Σ sales.quantity`. -/
def salesSum (db : DB) (pid : Nat) : Int := salesOf db.sales pid

/-- Autoincrement freshness: every product id, and every product reference
in the history tables, is below the products counter. -/
def ProductIdsFresh (db : DB) : Prop :=
  (∀ p ∈ db.products, p.id < db.next_product_id) ∧
  (∀ sa ∈ db.stock_additions, sa.product_id < db.next_product_id) ∧
  (∀ s ∈ db.sales, s.product_id < db.next_product_id)

/-- The per-product stock equation of the spec. -/
def StockInv (db : DB) : Prop :=
  ∀ p ∈ db.products, p.stock = p.init_stock + addsSum db p.id - salesSum db p.id

def uA : SessionUser := { id := 1, username := "admin", role := "admin" }

def opsC1 : List Op :=
  [.addProduct uA "2025-01-01" 1 "Cola" 10 15 5,
   .addStock uA "2025-01-02" 1 "Cola" "2025-01-02" 100,
   .recordSale uA "2025-01-03" 1 "Cola" "2025-01-03" 30 (.existing 1 "Acme" "" "" "")]

def dbC1 : DB := applyOps DB.empty opsC1

def dummyProduct : Product :=
  { id := 0, flavor_id := none, cost_price := 0, selling_price := 0, stock := 0,
    created_by := "", created_at := "", init_stock := 0 }

def pC1 : Product := dbC1.products.headD dummyProduct

def prodOne : Product :=
  { id := 1, flavor_id := some 1, cost_price := 10, selling_price := 15, stock := 5,
    created_by := "admin", created_at := "2025-01-01", init_stock := 5 }

def dbOne : DB :=
  { products := [prodOne], stock_additions := [], customers := [], sales := [],
    investments := [], activity_logs := [], next_product_id := 2 }

/-- The customer id carried by the inserted sale row: `c.lastrowid` of the
fresh customer in the add-new branch, the selected id otherwise. -/
def saleCustomerIdOf (db : DB) (cust : CustChoice) : Nat :=
  match cust with
  | .addNew .. => db.next_customer_id
  | .existing cid .. => cid

def custTwo : Customer := { id := 1, name := "Acme" }

def dbTwo : DB :=
  { products := [prodOne], stock_additions := [], customers := [custTwo], sales := [],
    investments := [], activity_logs := [], next_product_id := 2, next_customer_id := 2 }

def custW : CustChoice := .existing 1 "Acme" "1" "S" "A"

def rsRun3 : SaleResult :=
  recordSale dbTwo uA "2025-01-02" prodOne "Cola" "2025-01-02" 2 custW

def rsA3 : DB := match rsRun3 with | .success a _ _ => a | .failure _ => DB.empty

def rsB3 : DB := match rsRun3 with | .success _ b _ => b | .failure _ => DB.empty

def rsF3 : DB := match rsRun3 with | .success _ _ f => f | .failure _ => DB.empty

def dummyStockAddition : StockAddition :=
  { id := 0, product_id := 0, date := "", quantity := 0, batch_cost := 0,
    created_by := "", created_at := "" }

def rowC4 : StockAddition :=
  (addStockPage dbOne uA "2025-01-02" prodOne "Cola" "2025-01-02" (-5)).stock_additions.headD
    dummyStockAddition

def saleOrphan : Sale :=
  { id := 1, product_id := 1, date := "2025-01-05", quantity := 1, revenue := 15,
    customer_id := 1, created_by := "admin", created_at := "2025-01-05" }

def dbOrphan : DB :=
  { products := [], stock_additions := [], customers := [custTwo], sales := [saleOrphan],
    investments := [], activity_logs := [], next_sale_id := 2, next_customer_id := 2 }

def dbJoin : DB :=
  { products := [prodOne], stock_additions := [], customers := [custTwo],
    sales := [saleOrphan], investments := [], activity_logs := [],
    next_product_id := 2, next_sale_id := 2, next_customer_id := 2 }

lemma addsOf_append (l₁ l₂ : List StockAddition) (pid : Nat) :
    addsOf (l₁ ++ l₂) pid = addsOf l₁ pid + addsOf l₂ pid := by
  simp [addsOf, List.filter_append]

lemma addsOf_singleton (sa : StockAddition) (pid : Nat) :
    addsOf [sa] pid = if sa.product_id == pid then sa.quantity else 0 := by
  simp only [addsOf, List.filter_cons, List.filter_nil]
  split <;> simp

lemma addsOf_zero (l : List StockAddition) (pid : Nat)
    (h : ∀ sa ∈ l, sa.product_id ≠ pid) : addsOf l pid = 0 := by
  have hf : l.filter (fun sa => sa.product_id == pid) = [] :=
    List.filter_eq_nil_iff.mpr fun sa hsa => by simp [h sa hsa]
  simp [addsOf, hf]

lemma salesOf_append (l₁ l₂ : List Sale) (pid : Nat) :
    salesOf (l₁ ++ l₂) pid = salesOf l₁ pid + salesOf l₂ pid := by
  simp [salesOf, List.filter_append]

lemma salesOf_singleton (s : Sale) (pid : Nat) :
    salesOf [s] pid = if s.product_id == pid then s.quantity else 0 := by
  simp only [salesOf, List.filter_cons, List.filter_nil]
  split <;> simp

lemma salesOf_zero (l : List Sale) (pid : Nat)
    (h : ∀ s ∈ l, s.product_id ≠ pid) : salesOf l pid = 0 := by
  have hf : l.filter (fun s => s.product_id == pid) = [] :=
    List.filter_eq_nil_iff.mpr fun s hs => by simp [h s hs]
  simp [salesOf, hf]

/-- Both invariants only look at products, the two history tables and the
products counter, so they transport along states agreeing there. -/
lemma inv_transport {db₁ db₂ : DB}
    (hp : db₂.products = db₁.products) (ha : db₂.stock_additions = db₁.stock_additions)
    (hsal : db₂.sales = db₁.sales) (hn : db₂.next_product_id = db₁.next_product_id)
    (hf : ProductIdsFresh db₁) (hs : StockInv db₁) :
    ProductIdsFresh db₂ ∧ StockInv db₂ := by
  unfold ProductIdsFresh StockInv addsSum salesSum at *
  rw [hp, ha, hsal, hn]
  exact ⟨hf, hs⟩

lemma addProduct_preserves (db : DB) (u : SessionUser) (today : String) (fid : Nat)
    (fname : String) (cost selling : ℚ) (initStock : Int)
    (hf : ProductIdsFresh db) (hs : StockInv db) :
    ProductIdsFresh (addProduct db u today fid fname cost selling initStock) ∧
      StockInv (addProduct db u today fid fname cost selling initStock) := by
  obtain ⟨hfp, hfa, hfs⟩ := hf
  constructor
  · refine ⟨?_, ?_, ?_⟩ <;> intro x hx <;>
      simp [addProduct, log_activity] at hx ⊢
    · rcases hx with hx | hx
      · exact Nat.lt_succ_of_lt (hfp x hx)
      · simp [hx]
    · exact Nat.lt_succ_of_lt (hfa x hx)
    · exact Nat.lt_succ_of_lt (hfs x hx)
  · intro p hp
    simp [addProduct, log_activity] at hp
    have hadds : addsSum (addProduct db u today fid fname cost selling initStock) =
        addsSum db := rfl
    have hsales : salesSum (addProduct db u today fid fname cost selling initStock) =
        salesSum db := rfl
    rw [hadds, hsales]
    rcases hp with hp | hp
    · exact hs p hp
    · subst hp
      have h0a : addsSum db db.next_product_id = 0 :=
        addsOf_zero _ _ fun sa hsa => Nat.ne_of_lt (hfa sa hsa)
      have h0s : salesSum db db.next_product_id = 0 :=
        salesOf_zero _ _ fun s hsw => Nat.ne_of_lt (hfs s hsw)
      simp [h0a, h0s]

lemma addStock_preserves (db : DB) (u : SessionUser) (today : String) (sel : Product)
    (fname d : String) (qty : Int)
    (hmem : sel ∈ db.products) (hf : ProductIdsFresh db) (hs : StockInv db) :
    ProductIdsFresh (addStock db u today sel fname d qty) ∧
      StockInv (addStock db u today sel fname d qty) := by
  obtain ⟨hfp, hfa, hfs⟩ := hf
  have hsel : sel.id < db.next_product_id := hfp sel hmem
  constructor
  · refine ⟨?_, ?_, ?_⟩ <;> intro x hx <;>
      simp [addStock, log_activity] at hx ⊢
    · obtain ⟨q, hq, rfl⟩ := hx
      split <;> exact hfp q hq
    · rcases hx with hx | hx
      · exact hfa x hx
      · simp [hx, hsel]
    · exact hfs x hx
  · intro p hp
    simp [addStock, log_activity] at hp
    obtain ⟨q, hq, rfl⟩ := hp
    have hadds : ∀ pid, addsSum (addStock db u today sel fname d qty) pid =
        addsSum db pid + (if sel.id = pid then qty else 0) := by
      intro pid
      show addsOf (db.stock_additions ++ [_]) pid = _
      rw [addsOf_append, addsOf_singleton]
      simp [addsSum]
    have hsales : ∀ pid, salesSum (addStock db u today sel fname d qty) pid =
        salesSum db pid := fun _ => rfl
    have hIH := hs q hq
    by_cases hqid : q.id = sel.id
    · rw [if_pos hqid]
      show q.stock + qty = q.init_stock +
        addsSum (addStock db u today sel fname d qty) q.id -
        salesSum (addStock db u today sel fname d qty) q.id
      rw [hadds, hsales, if_pos hqid.symm]
      omega
    · rw [if_neg hqid]
      show q.stock = q.init_stock +
        addsSum (addStock db u today sel fname d qty) q.id -
        salesSum (addStock db u today sel fname d qty) q.id
      rw [hadds, hsales, if_neg fun h => hqid h.symm]
      omega

lemma saleStep_preserves (db : DB) (u : SessionUser) (today : String) (sel : Product)
    (d : String) (qty : Int) (cid : Nat)
    (hmem : sel ∈ db.products) (hf : ProductIdsFresh db) (hs : StockInv db) :
    ProductIdsFresh (saleStep db u today sel d qty cid) ∧
      StockInv (saleStep db u today sel d qty cid) := by
  obtain ⟨hfp, hfa, hfs⟩ := hf
  have hsel : sel.id < db.next_product_id := hfp sel hmem
  constructor
  · refine ⟨?_, ?_, ?_⟩ <;> intro x hx <;>
      simp [saleStep] at hx ⊢
    · obtain ⟨q, hq, rfl⟩ := hx
      split <;> exact hfp q hq
    · exact hfa x hx
    · rcases hx with hx | hx
      · exact hfs x hx
      · simp [hx, hsel]
  · intro p hp
    simp [saleStep] at hp
    obtain ⟨q, hq, rfl⟩ := hp
    have hadds : ∀ pid, addsSum (saleStep db u today sel d qty cid) pid =
        addsSum db pid := fun _ => rfl
    have hsales : ∀ pid, salesSum (saleStep db u today sel d qty cid) pid =
        salesSum db pid + (if sel.id = pid then qty else 0) := by
      intro pid
      show salesOf (db.sales ++ [_]) pid = _
      rw [salesOf_append, salesOf_singleton]
      simp [salesSum]
    have hIH := hs q hq
    by_cases hqid : q.id = sel.id
    · rw [if_pos hqid]
      show q.stock - qty = q.init_stock +
        addsSum (saleStep db u today sel d qty cid) q.id -
        salesSum (saleStep db u today sel d qty cid) q.id
      rw [hadds, hsales, if_pos hqid.symm]
      omega
    · rw [if_neg hqid]
      show q.stock = q.init_stock +
        addsSum (saleStep db u today sel d qty cid) q.id -
        salesSum (saleStep db u today sel d qty cid) q.id
      rw [hadds, hsales, if_neg fun h => hqid h.symm]
      omega

/-- A Record Sale submission either stops before any write, or its final
state is the log-activity step applied to the sale step applied to a
customer-step state that agrees with the input on products, the history
tables and the products counter. -/
lemma recordSaleStep_fst_spec (db : DB) (u : SessionUser) (today : String) (sel : Product)
    (fname d : String) (qty : Int) (cust : CustChoice) :
    (recordSaleStep db u today sel fname d qty cust).1 = db ∨
    ∃ dbc cid, dbc.products = db.products ∧ dbc.stock_additions = db.stock_additions ∧
      dbc.sales = db.sales ∧ dbc.next_product_id = db.next_product_id ∧
      (recordSaleStep db u today sel fname d qty cust).1 =
        log_activity (some u) (s!"Sold {qty} of {fname}") today
          (saleStep dbc u today sel d qty cid) := by
  unfold recordSaleStep recordSale
  by_cases h1 : sel.stock ≤ 0
  · simp [h1]
  · by_cases h2 : qty > sel.stock
    · simp [h1, h2]
    · cases cust with
      | addNew name phone shop area =>
          by_cases h3 : name.trim = ""
          · simp [h1, h2, h3]
          · right
            refine ⟨custStepNew db u today name phone shop area, db.next_customer_id,
              rfl, rfl, rfl, rfl, ?_⟩
            simp [h1, h2, h3]
      | existing cid name phone shop area =>
          right
          refine ⟨custStepExisting db u today cid name phone shop area, cid,
            rfl, rfl, rfl, rfl, ?_⟩
          simp [h1, h2]

lemma core_step (op : Op) (hc : op.isCore = true) (db : DB)
    (hf : ProductIdsFresh db) (hs : StockInv db) :
    ProductIdsFresh (applyOp op db) ∧ StockInv (applyOp op db) := by
  cases op with
  | addProduct u today fid fname cost selling initStock =>
      exact addProduct_preserves db u today fid fname cost selling initStock hf hs
  | addStock u today pid fname d qty =>
      simp only [applyOp]
      cases hfind : db.products.find? (fun p => p.id == pid) with
      | none => exact ⟨hf, hs⟩
      | some sel =>
          exact addStock_preserves db u today sel fname d qty
            (List.mem_of_find?_eq_some hfind) hf hs
  | recordSale u today pid fname d qty cust =>
      simp only [applyOp]
      cases hfind : db.products.find? (fun p => p.id == pid) with
      | none => exact ⟨hf, hs⟩
      | some sel =>
          have hmem := List.mem_of_find?_eq_some hfind
          show ProductIdsFresh ((recordSaleStep db u today sel fname d qty cust).1) ∧
            StockInv ((recordSaleStep db u today sel fname d qty cust).1)
          rcases recordSaleStep_fst_spec db u today sel fname d qty cust with h | h
          · rw [h]; exact ⟨hf, hs⟩
          · obtain ⟨dbc, cid, hp, ha, hsal, hn, hfin⟩ := h
            rw [hfin]
            have hc1 : ProductIdsFresh dbc ∧ StockInv dbc :=
              inv_transport hp ha hsal hn hf hs
            have hmemc : sel ∈ dbc.products := by rw [hp]; exact hmem
            have hc2 := saleStep_preserves dbc u today sel d qty cid hmemc hc1.1 hc1.2
            exact inv_transport rfl rfl rfl rfl hc2.1 hc2.2
  | editProduct u today pid fid fname cost selling stock => simp [Op.isCore] at hc
  | deleteProduct pid => simp [Op.isCore] at hc
  | addInvestment today amount note => simp [Op.isCore] at hc
  | addCustomer u today name phone shop area => simp [Op.isCore] at hc
  | deleteCustomer cid => simp [Op.isCore] at hc

lemma core_ops_preserve (ops : List Op) (hcore : ∀ op ∈ ops, op.isCore = true) :
    ∀ db, ProductIdsFresh db → StockInv db →
      ProductIdsFresh (applyOps db ops) ∧ StockInv (applyOps db ops) := by
  induction ops with
  | nil => intro db hf hs; exact ⟨hf, hs⟩
  | cons op rest ih =>
      intro db hf hs
      have h1 := core_step op (hcore op (by simp)) db hf hs
      have h2 := ih (fun o ho => hcore o (by simp [ho])) (applyOp op db) h1.1 h1.2
      simpa [applyOps] using h2

lemma headD_mem_of_ne_nil {α : Type} (l : List α) (d : α) (h : l ≠ []) : l.headD d ∈ l := by
  cases l with
  | nil => exact absurd rfl h
  | cons a as => exact List.mem_cons_self a as

/-- C1: starting from the fresh store, after any sequence of the ledger
operations AddProduct, AddStock and RecordSale, every product's stored
stock equals its initial stock plus the sum of the quantities of its stock
additions minus the sum of the quantities of its sales. -/
theorem stock_ledger_invariant (ops : List Op) (hcore : ∀ op ∈ ops, op.isCore = true) :
    ∀ p ∈ (applyOps DB.empty ops).products,
      p.stock = p.init_stock + addsSum (applyOps DB.empty ops) p.id
        - salesSum (applyOps DB.empty ops) p.id := by
  have hf0 : ProductIdsFresh DB.empty := by
    refine ⟨?_, ?_, ?_⟩ <;> intro x hx <;> simp [DB.empty] at hx
  have hs0 : StockInv DB.empty := by
    intro p hp; simp [DB.empty] at hp
  exact (core_ops_preserve ops hcore DB.empty hf0 hs0).2

theorem stock_ledger_invariant_witness :
    pC1.stock = pC1.init_stock + addsSum dbC1 pC1.id - salesSum dbC1 pC1.id :=
  stock_ledger_invariant opsC1 (by decide) pC1
    (headD_mem_of_ne_nil _ _ (by decide))

/-- C2: when the requested quantity exceeds the selected product's stock,
the Record Sale submission fails with the insufficient-stock error and the
store — products, sales and customers included — is returned unchanged
(both `st.stop()` guards fire before any write). -/
theorem recordSale_insufficient_stock (db : DB) (u : SessionUser) (today : String)
    (sel : Product) (fname d : String) (qty : Int) (cust : CustChoice)
    (h : sel.stock < qty) :
    recordSaleStep db u today sel fname d qty cust = (db, some .InsufficientStock) := by
  unfold recordSaleStep recordSale
  by_cases h1 : sel.stock ≤ 0
  · simp [h1]
  · have h2 : qty > sel.stock := h
    simp [h1, h2]

theorem recordSale_insufficient_stock_witness :
    recordSaleStep dbOne uA "2025-01-02" prodOne "Cola" "2025-01-02" 10
      (.existing 1 "Acme" "" "" "") = (dbOne, some .InsufficientStock) :=
  recordSale_insufficient_stock dbOne uA "2025-01-02" prodOne "Cola" "2025-01-02" 10
    (.existing 1 "Acme" "" "" "") (by decide)

/-- C3 counterexample: a concrete successful Record Sale whose first
committed snapshot already carries the customer effect (the update stamp)
while the sales table and the stock are still untouched — the customer
upsert is persisted on its own, so the three effects are not applied in a
single atomic commit. -/
theorem recordSale_atomicity_counterexample :
    (recordSaleCommits dbTwo uA "2025-01-02" prodOne "Cola" "2025-01-02" 2 custW).map
        (fun t => (t.1.customers.map fun cr => cr.updated_by,
                   t.1.sales.length,
                   t.1.products.map fun p => p.stock,
                   t.2.2.sales.length,
                   t.2.2.products.map fun p => p.stock))
      = some ([some "admin"], 0, [5], 1, [3]) ∧
    dbTwo.customers.map (fun cr => cr.updated_by) = [none] := by
  constructor <;> decide

/-- C3 amended: the effects of RecordSale are not committed as one
transaction. All validation precedes the first write, so a failed
submission persists nothing; on success the customer insert-or-update is
committed first on its own, then the sale insert and the stock decrement
are committed together in the second commit, and the activity log in the
third, which is the final state. -/
theorem recordSale_commit_structure (db : DB) (u : SessionUser) (today : String)
    (sel : Product) (fname d : String) (qty : Int) (cust : CustChoice) :
    (∀ e, recordSale db u today sel fname d qty cust = .failure e →
      recordSaleStep db u today sel fname d qty cust = (db, some e)) ∧
    (∀ a b f, recordSale db u today sel fname d qty cust = .success a b f →
      a.sales = db.sales ∧ a.stock_additions = db.stock_additions ∧
      a.products = db.products ∧
      b.customers = a.customers ∧
      b.sales = a.sales ++
        [{ id := a.next_sale_id, product_id := sel.id, date := d, quantity := qty,
           revenue := qty * sel.selling_price, customer_id := saleCustomerIdOf db cust,
           created_by := u.username, created_at := today }] ∧
      b.products = a.products.map
        (fun p => if p.id == sel.id then { p with stock := p.stock - qty } else p) ∧
      b.stock_additions = a.stock_additions ∧
      f.customers = b.customers ∧ f.sales = b.sales ∧ f.products = b.products ∧
      f.stock_additions = b.stock_additions ∧
      recordSaleStep db u today sel fname d qty cust = (f, none)) := by
  by_cases h1 : sel.stock ≤ 0
  · constructor
    · intro e heq
      simp [recordSale, h1] at heq
      simp [recordSaleStep, recordSale, h1, heq]
    · intro a b f heq
      simp [recordSale, h1] at heq
  · by_cases h2 : qty > sel.stock
    · constructor
      · intro e heq
        simp [recordSale, h1, h2] at heq
        simp [recordSaleStep, recordSale, h1, h2, heq]
      · intro a b f heq
        simp [recordSale, h1, h2] at heq
    · cases cust with
      | addNew name phone shop area =>
          by_cases h3 : name.trim = ""
          · constructor
            · intro e heq
              simp [recordSale, h1, h2, h3] at heq
              simp [recordSaleStep, recordSale, h1, h2, h3, heq]
            · intro a b f heq
              simp [recordSale, h1, h2, h3] at heq
          · constructor
            · intro e heq
              simp [recordSale, h1, h2, h3] at heq
            · intro a b f heq
              simp [recordSale, h1, h2, h3] at heq
              obtain ⟨ha, hb, hf2⟩ := heq
              subst ha; subst hb; subst hf2
              refine ⟨rfl, rfl, rfl, rfl, rfl, rfl, rfl, rfl, rfl, rfl, rfl, ?_⟩
              simp [recordSaleStep, recordSale, h1, h2, h3]
      | existing cid name phone shop area =>
          constructor
          · intro e heq
            simp [recordSale, h1, h2] at heq
          · intro a b f heq
            simp [recordSale, h1, h2] at heq
            obtain ⟨ha, hb, hf2⟩ := heq
            subst ha; subst hb; subst hf2
            refine ⟨rfl, rfl, rfl, rfl, rfl, rfl, rfl, rfl, rfl, rfl, rfl, ?_⟩
            simp [recordSaleStep, recordSale, h1, h2]

theorem recordSale_commit_structure_witness :
    recordSaleStep dbTwo uA "2025-01-02" prodOne "Cola" "2025-01-02" 10 custW
        = (dbTwo, some .InsufficientStock) ∧
    rsB3.sales = rsA3.sales ++
      [{ id := rsA3.next_sale_id, product_id := prodOne.id, date := "2025-01-02",
         quantity := 2, revenue := (2 : Int) * prodOne.selling_price,
         customer_id := saleCustomerIdOf dbTwo custW,
         created_by := uA.username, created_at := "2025-01-02" }] ∧
    rsB3.products = rsA3.products.map
      (fun p => if p.id == prodOne.id then { p with stock := p.stock - 2 } else p) :=
  ⟨(recordSale_commit_structure dbTwo uA "2025-01-02" prodOne "Cola" "2025-01-02" 10 custW).1
      .InsufficientStock rfl,
   ((recordSale_commit_structure dbTwo uA "2025-01-02" prodOne "Cola" "2025-01-02" 2 custW).2
      rsA3 rsB3 rsF3 (by rfl)).2.2.2.2.1,
   ((recordSale_commit_structure dbTwo uA "2025-01-02" prodOne "Cola" "2025-01-02" 2 custW).2
      rsA3 rsB3 rsF3 (by rfl)).2.2.2.2.2.1⟩

/-- C4 counterexample: the Add Stock handler run with quantity 0 (≤ 0) does
not fail — it has no error outcome at all — and it does mutate the store:
a `stock_additions` row with quantity 0 is inserted and an activity log
entry is written. The claimed `InvalidQuantity` rejection does not exist in
the handler. -/
theorem addStock_invalid_quantity_counterexample :
    (addStock dbOne uA "2025-01-02" prodOne "Cola" "2025-01-02" 0).stock_additions.map
        (fun sa => sa.quantity) = [0] ∧
    dbOne.stock_additions = [] ∧
    (addStock dbOne uA "2025-01-02" prodOne "Cola" "2025-01-02" 0).activity_logs.length = 1 := by
  refine ⟨?_, ?_, ?_⟩ <;> decide

/-- C4 amended: a submission with quantity ≤ 0 cannot reach the handler:
the quantity widget (`st.number_input` with `min_value=1`) never yields a
value below 1, so every stock-addition row created through the Add Stock
page has quantity ≥ 1; the handler itself performs no quantity check. -/
theorem addStockPage_quantity_positive (db : DB) (u : SessionUser) (today : String)
    (sel : Product) (fname d : String) (raw : Int) :
    1 ≤ numberInputClamp 1 raw ∧
    ∀ sa ∈ (addStockPage db u today sel fname d raw).stock_additions,
      sa ∈ db.stock_additions ∨ 1 ≤ sa.quantity := by
  constructor
  · exact le_max_left 1 raw
  · intro sa hsa
    simp [addStockPage, addStock, log_activity] at hsa
    rcases hsa with hsa | hsa
    · exact Or.inl hsa
    · right
      subst hsa
      exact le_max_left 1 raw

theorem addStockPage_quantity_positive_witness :
    1 ≤ numberInputClamp 1 (-5) ∧
    (rowC4 ∈ dbOne.stock_additions ∨ 1 ≤ rowC4.quantity) :=
  ⟨(addStockPage_quantity_positive dbOne uA "2025-01-02" prodOne "Cola" "2025-01-02" (-5)).1,
   (addStockPage_quantity_positive dbOne uA "2025-01-02" prodOne "Cola" "2025-01-02" (-5)).2
      rowC4 (headD_mem_of_ne_nil _ _ (by decide))⟩

lemma applyOp_stock_additions_extend (op : Op) (db : DB) :
    ∃ t, (applyOp op db).stock_additions = db.stock_additions ++ t := by
  cases op with
  | addProduct u today fid fname cost selling initStock =>
      exact ⟨[], by simp [applyOp, addProduct, log_activity]⟩
  | editProduct u today pid fid fname cost selling stock =>
      exact ⟨[], by simp [applyOp, editProduct, log_activity]⟩
  | deleteProduct pid => exact ⟨[], by simp [applyOp]⟩
  | addStock u today pid fname d qty =>
      simp only [applyOp]
      cases hfind : db.products.find? (fun p => p.id == pid) with
      | none => exact ⟨[], by simp⟩
      | some sel =>
          exact ⟨[{ id := db.next_stock_id, product_id := sel.id, date := d, quantity := qty,
                    batch_cost := qty * sel.cost_price, created_by := u.username,
                    created_at := today }], by simp [addStock, log_activity]⟩
  | recordSale u today pid fname d qty cust =>
      simp only [applyOp]
      cases hfind : db.products.find? (fun p => p.id == pid) with
      | none => exact ⟨[], by simp⟩
      | some sel =>
          show ∃ t, ((recordSaleStep db u today sel fname d qty cust).1).stock_additions =
            db.stock_additions ++ t
          rcases recordSaleStep_fst_spec db u today sel fname d qty cust with h | h
          · exact ⟨[], by simp [h]⟩
          · obtain ⟨dbc, cid, hp, ha, hsal, hn, hfin⟩ := h
            refine ⟨[], ?_⟩
            rw [hfin]
            show (saleStep dbc u today sel d qty cid).stock_additions = _
            show dbc.stock_additions = _
            simp [ha]
  | addInvestment today amount note => exact ⟨[], by simp [applyOp, addInvestment]⟩
  | addCustomer u today name phone shop area =>
      refine ⟨[], ?_⟩
      simp only [applyOp, addCustomer]
      split <;> simp [log_activity]
  | deleteCustomer cid => exact ⟨[], by simp [applyOp]⟩

lemma applyOps_stock_additions_extend (ops : List Op) :
    ∀ db, ∃ t, (applyOps db ops).stock_additions = db.stock_additions ++ t := by
  induction ops with
  | nil => intro db; exact ⟨[], by simp [applyOps]⟩
  | cons op rest ih =>
      intro db
      obtain ⟨t1, h1⟩ := applyOp_stock_additions_extend op db
      obtain ⟨t2, h2⟩ := ih (applyOp op db)
      refine ⟨t1 ++ t2, ?_⟩
      show (applyOps (applyOp op db) rest).stock_additions = _
      rw [h2, h1, List.append_assoc]

lemma applyOp_sales_extend (op : Op) (db : DB) :
    ∃ t, (applyOp op db).sales = db.sales ++ t := by
  cases op with
  | addProduct u today fid fname cost selling initStock =>
      exact ⟨[], by simp [applyOp, addProduct, log_activity]⟩
  | editProduct u today pid fid fname cost selling stock =>
      exact ⟨[], by simp [applyOp, editProduct, log_activity]⟩
  | deleteProduct pid => exact ⟨[], by simp [applyOp]⟩
  | addStock u today pid fname d qty =>
      simp only [applyOp]
      cases hfind : db.products.find? (fun p => p.id == pid) with
      | none => exact ⟨[], by simp⟩
      | some sel => exact ⟨[], by simp [addStock, log_activity]⟩
  | recordSale u today pid fname d qty cust =>
      simp only [applyOp]
      cases hfind : db.products.find? (fun p => p.id == pid) with
      | none => exact ⟨[], by simp⟩
      | some sel =>
          show ∃ t, ((recordSaleStep db u today sel fname d qty cust).1).sales =
            db.sales ++ t
          rcases recordSaleStep_fst_spec db u today sel fname d qty cust with h | h
          · exact ⟨[], by simp [h]⟩
          · obtain ⟨dbc, cid, hp, ha, hsal, hn, hfin⟩ := h
            refine ⟨[{ id := dbc.next_sale_id, product_id := sel.id, date := d, quantity := qty,
                       revenue := qty * sel.selling_price, customer_id := cid,
                       created_by := u.username, created_at := today }], ?_⟩
            rw [hfin]
            show (saleStep dbc u today sel d qty cid).sales = _
            show dbc.sales ++ _ = _
            rw [hsal]
  | addInvestment today amount note => exact ⟨[], by simp [applyOp, addInvestment]⟩
  | addCustomer u today name phone shop area =>
      refine ⟨[], ?_⟩
      simp only [applyOp, addCustomer]
      split <;> simp [log_activity]
  | deleteCustomer cid => exact ⟨[], by simp [applyOp]⟩

lemma applyOps_sales_extend (ops : List Op) :
    ∀ db, ∃ t, (applyOps db ops).sales = db.sales ++ t := by
  induction ops with
  | nil => intro db; exact ⟨[], by simp [applyOps]⟩
  | cons op rest ih =>
      intro db
      obtain ⟨t1, h1⟩ := applyOp_sales_extend op db
      obtain ⟨t2, h2⟩ := ih (applyOp op db)
      refine ⟨t1 ++ t2, ?_⟩
      show (applyOps (applyOp op db) rest).sales = _
      rw [h2, h1, List.append_assoc]

/-- C5: a successful Add Stock appends exactly one `stock_additions` row
whose `batch_cost` is the quantity times the cost price the selected
product carried at that moment; the row — its stored `batch_cost`
included — survives unchanged, at its position, under every further
modelled operation (product edits that change `cost_price` included):
stock additions are never updated or recomputed. -/
theorem batch_cost_captured_immutable (db : DB) (u : SessionUser) (today : String)
    (sel : Product) (fname d : String) (qty : Int) (ops : List Op) :
    ∃ row : StockAddition,
      (addStock db u today sel fname d qty).stock_additions = db.stock_additions ++ [row] ∧
      row.batch_cost = qty * sel.cost_price ∧
      row.quantity = qty ∧ row.product_id = sel.id ∧
      ∃ t, (applyOps (addStock db u today sel fname d qty) ops).stock_additions
          = db.stock_additions ++ [row] ++ t := by
  refine ⟨_, rfl, rfl, rfl, rfl, ?_⟩
  obtain ⟨t, ht⟩ := applyOps_stock_additions_extend ops (addStock db u today sel fname d qty)
  exact ⟨t, by rw [ht]; rfl⟩

lemma recordSale_success_sales (db : DB) (u : SessionUser) (today : String) (sel : Product)
    (fname d : String) (qty : Int) (cust : CustChoice) (a b f : DB)
    (h : recordSale db u today sel fname d qty cust = .success a b f) :
    a.sales = db.sales ∧
    f.sales = a.sales ++
      [{ id := a.next_sale_id, product_id := sel.id, date := d, quantity := qty,
         revenue := qty * sel.selling_price, customer_id := saleCustomerIdOf db cust,
         created_by := u.username, created_at := today }] := by
  by_cases h1 : sel.stock ≤ 0
  · simp [recordSale, h1] at h
  · by_cases h2 : qty > sel.stock
    · simp [recordSale, h1, h2] at h
    · cases cust with
      | addNew name phone shop area =>
          by_cases h3 : name.trim = ""
          · simp [recordSale, h1, h2, h3] at h
          · simp [recordSale, h1, h2, h3] at h
            obtain ⟨ha, hb, hf2⟩ := h
            subst ha; subst hb; subst hf2
            exact ⟨rfl, rfl⟩
      | existing cid name phone shop area =>
          simp [recordSale, h1, h2] at h
          obtain ⟨ha, hb, hf2⟩ := h
          subst ha; subst hb; subst hf2
          exact ⟨rfl, rfl⟩

/-- C6: a successful Record Sale appends exactly one sale row whose revenue
is the sold quantity times the selling price the selected product carried
at sale time, and the row — its stored revenue included — survives
unchanged, at its position, under every further modelled operation: sales
are never updated. -/
theorem sale_revenue_captured_immutable (db : DB) (u : SessionUser) (today : String)
    (sel : Product) (fname d : String) (qty : Int) (cust : CustChoice) (a b f : DB)
    (ops : List Op)
    (h : recordSale db u today sel fname d qty cust = .success a b f) :
    ∃ row : Sale,
      f.sales = db.sales ++ [row] ∧
      row.revenue = qty * sel.selling_price ∧
      row.quantity = qty ∧ row.product_id = sel.id ∧
      ∃ t, (applyOps f ops).sales = db.sales ++ [row] ++ t := by
  obtain ⟨hsa, hsf⟩ := recordSale_success_sales db u today sel fname d qty cust a b f h
  refine ⟨{ id := a.next_sale_id, product_id := sel.id, date := d, quantity := qty,
            revenue := qty * sel.selling_price, customer_id := saleCustomerIdOf db cust,
            created_by := u.username, created_at := today }, ?_, rfl, rfl, rfl, ?_⟩
  · rw [hsf, hsa]
  · obtain ⟨t, ht⟩ := applyOps_sales_extend ops f
    exact ⟨t, by rw [ht, hsf, hsa, List.append_assoc]⟩

theorem sale_revenue_captured_immutable_witness :
    ∃ row : Sale,
      rsF3.sales = dbTwo.sales ++ [row] ∧
      row.revenue = (2 : Int) * prodOne.selling_price ∧
      row.quantity = 2 ∧ row.product_id = prodOne.id ∧
      ∃ t, (applyOps rsF3 []).sales = dbTwo.sales ++ [row] ++ t :=
  sale_revenue_captured_immutable dbTwo uA "2025-01-02" prodOne "Cola" "2025-01-02" 2 custW
    rsA3 rsB3 rsF3 [] (by rfl)

/-- C7: after any sequence of operations, the dashboard metrics satisfy
`profit = total_revenue - cost_used` and
`remaining_investment = total_investment - cost_used`, where the three
totals are the full-table sums over sales, stock additions and
investments; the Financial Summary page's profit satisfies the same
identity even though it sums through pandas with an explicit empty-frame
fallback. -/
theorem aggregate_profit_identities (db0 : DB) (ops : List Op) :
    profit (applyOps db0 ops) =
      total_revenue (applyOps db0 ops) - cost_used (applyOps db0 ops) ∧
    remaining_investment (applyOps db0 ops) =
      total_investment (applyOps db0 ops) - cost_used (applyOps db0 ops) ∧
    financial_summary_profit (applyOps db0 ops) =
      total_revenue (applyOps db0 ops) - cost_used (applyOps db0 ops) := by
  refine ⟨rfl, rfl, ?_⟩
  unfold financial_summary_profit financial_summary_revenue total_revenue
  split
  · rename_i h
    rw [h]
    simp
  · rfl

lemma sum_ite_key {α : Type} (key : α → String) (x : α) (v : ℚ) :
    ∀ ks : List String, ks.Nodup → key x ∈ ks →
      (ks.map fun m => if key x = m then v else 0).sum = v := by
  intro ks
  induction ks with
  | nil => intro _ h; simp at h
  | cons m ms ih =>
      intro hnd hmem
      rw [List.nodup_cons] at hnd
      by_cases h : key x = m
      · subst h
        have hz : (ms.map fun m2 => if key x = m2 then v else 0).sum = 0 := by
          apply List.sum_eq_zero
          intro y hy
          simp only [List.mem_map] at hy
          obtain ⟨m2, hm2, rfl⟩ := hy
          have hne : key x ≠ m2 := fun he => hnd.1 (he ▸ hm2)
          simp [hne]
        simp [hz]
      · have hmem2 : key x ∈ ms := by
          rcases List.mem_cons.mp hmem with h1 | h1
          · exact absurd h1 h
          · exact h1
        have hih := ih hnd.2 hmem2
        simp [h, hih]

lemma groupSum {α : Type} (key : α → String) (f : α → ℚ) :
    ∀ (l : List α) (ks : List String), ks.Nodup → (∀ x ∈ l, key x ∈ ks) →
      (ks.map fun m => ((l.filter fun z => key z == m).map f).sum).sum = (l.map f).sum := by
  intro l
  induction l with
  | nil =>
      intro ks _ _
      simp
  | cons x xs ih =>
      intro ks hnd hcov
      have hx : key x ∈ ks := hcov x (List.mem_cons_self x xs)
      have hxs : ∀ y ∈ xs, key y ∈ ks := fun y hy => hcov y (List.mem_cons_of_mem x hy)
      have hsplit : (ks.map fun m => (((x :: xs).filter fun z => key z == m).map f).sum)
          = ks.map fun m => (if key x = m then f x else 0) +
              ((xs.filter fun z => key z == m).map f).sum := by
        refine congrArg (fun g => List.map g ks) (funext fun m => ?_)
        rw [List.filter_cons]
        by_cases h : key x = m
        · simp [h]
        · simp [h]
      rw [hsplit, List.sum_map_add, sum_ite_key key x (f x) ks hnd hx, ih ks hnd hxs]
      simp

lemma groupSumSales (l : List Sale) (ks : List String) (hnd : ks.Nodup)
    (hcov : ∀ s ∈ l, monthOf s.date ∈ ks) :
    (ks.map fun m => ((l.filter fun s => monthOf s.date == m).map fun s => s.revenue).sum).sum
      = (l.map fun s => s.revenue).sum :=
  groupSum (fun s => monthOf s.date) (fun s => s.revenue) l ks hnd hcov

lemma filter_id_eq_singleton :
    ∀ (ps : List Product) (pid : Nat), ((ps.map fun p => p.id).Nodup) →
      ∀ p ∈ ps, p.id = pid → ps.filter (fun q => q.id == pid) = [p] := by
  intro ps
  induction ps with
  | nil => intro pid _ p hp; simp at hp
  | cons q qs ih =>
      intro pid hnd p hp hpid
      rw [List.map_cons, List.nodup_cons] at hnd
      rcases List.mem_cons.mp hp with rfl | hp2
      · have hz : qs.filter (fun q2 => q2.id == pid) = [] := by
          apply List.filter_eq_nil_iff.mpr
          intro q2 hq2
          simp only [beq_iff_eq]
          intro he
          exact hnd.1 (hpid ▸ he ▸ List.mem_map_of_mem (fun r => r.id) hq2)
        rw [List.filter_cons]
        simp [hpid, hz]
      · have hq : ¬ q.id = pid := by
          intro he
          exact hnd.1 (he ▸ hpid ▸ List.mem_map_of_mem (fun r => r.id) hp2)
        rw [List.filter_cons]
        simp only [beq_iff_eq, hq, if_false]
        exact ih pid hnd.2 p hp2 hpid

lemma joined_eq_sales (db : DB) (hnd : (db.products.map fun p => p.id).Nodup)
    (hcov : ∀ s ∈ db.sales, ∃ p ∈ db.products, p.id = s.product_id) :
    reportJoinedSales db = db.sales := by
  unfold reportJoinedSales
  suffices h : ∀ ss : List Sale, (∀ s ∈ ss, ∃ p ∈ db.products, p.id = s.product_id) →
      (ss.flatMap fun s =>
        (db.products.filter fun p => p.id == s.product_id).map fun _ => s) = ss by
    exact h db.sales hcov
  intro ss hss
  induction ss with
  | nil => simp
  | cons s rest ih =>
      obtain ⟨p, hp, hpid⟩ := hss s (List.mem_cons_self s rest)
      have hfil := filter_id_eq_singleton db.products s.product_id hnd p hp hpid
      have hih := ih fun s2 hs2 => hss s2 (List.mem_cons_of_mem s hs2)
      simp only [List.flatMap_cons, hfil, List.map_cons, List.map_nil, hih]
      rfl

/-- C8 counterexample: a store holding one sale whose product row was
deleted (an orphaned `product_id`, reachable through the Products page's
delete button). The Reports monthly rollup inner-joins sales to products,
so the sale falls out of every month and the monthly revenue sums to 0,
while the dashboard's `total_revenue` still counts it: the monthly rollup
does not partition the sales table. -/
theorem monthly_rollup_counterexample :
    monthly_revenue_total dbOrphan = 0 ∧ total_revenue dbOrphan = 15 ∧
    monthly_revenue_total dbOrphan ≠ total_revenue dbOrphan := by
  have h1 : monthly_revenue_total dbOrphan = 0 := rfl
  have h2 : total_revenue dbOrphan = 15 := by
    simp [total_revenue, dbOrphan, saleOrphan]
  refine ⟨h1, h2, ?_⟩
  rw [h1, h2]
  decide

/-- C8 amended: the sum over all months of the monthly-rollup revenue
equals the revenue sum of the sales that survive the report's inner join
to products; whenever every sale's `product_id` still references an
existing product and product ids are distinct (as the primary key
guarantees), this equals `total_revenue`. A sale whose product was deleted
is counted in `total_revenue` but in no month. -/
theorem monthly_rollup_partition (db : DB)
    (hnd : (db.products.map fun p => p.id).Nodup)
    (hcov : ∀ s ∈ db.sales, ∃ p ∈ db.products, p.id = s.product_id) :
    monthly_revenue_total db = total_revenue db := by
  unfold monthly_revenue_total monthly_revenue reportMonths total_revenue
  rw [joined_eq_sales db hnd hcov]
  apply groupSumSales
  · exact List.nodup_dedup _
  · intro x hx
    exact List.mem_dedup.mpr (List.mem_append_left _
      (List.mem_map_of_mem (fun s => monthOf s.date) hx))

theorem monthly_rollup_partition_witness :
    monthly_revenue_total dbJoin = total_revenue dbJoin :=
  monthly_rollup_partition dbJoin (by decide) (by decide)

/-- C9: for any authenticated role other than `admin` (the only other role
the app creates is `staff`), the dashboard renders only the stock count,
the sidebar offers only the staff page subset, the page gate denies the
Flavors, Products, Company Investment, Reports, Financial Summary and
Admin Activity views (and with them their write forms), and the Admin
Activity page's own check denies as well. -/
theorem staff_access_restricted (role : String) (h : role ≠ "admin") :
    dashboardMetricsShown role = ["Total Stock"] ∧
    pagesFor role = user_pages ∧
    navAccessAllowed role "Flavors" = false ∧
    navAccessAllowed role "Products" = false ∧
    navAccessAllowed role "Company Investment" = false ∧
    navAccessAllowed role "Reports & Graphs" = false ∧
    navAccessAllowed role "Financial Summary" = false ∧
    navAccessAllowed role "Admin Activity" = false ∧
    adminActivityAllowed role = false := by
  have hb : (role == "admin") = false := by simp [h]
  refine ⟨?_, ?_, ?_, ?_, ?_, ?_, ?_, ?_, ?_⟩ <;>
    simp [dashboardMetricsShown, pagesFor, navAccessAllowed, adminActivityAllowed,
          user_pages, h, hb]

theorem staff_access_restricted_witness :
    dashboardMetricsShown "staff" = ["Total Stock"] ∧
    pagesFor "staff" = user_pages ∧
    navAccessAllowed "staff" "Flavors" = false ∧
    navAccessAllowed "staff" "Products" = false ∧
    navAccessAllowed "staff" "Company Investment" = false ∧
    navAccessAllowed "staff" "Reports & Graphs" = false ∧
    navAccessAllowed "staff" "Financial Summary" = false ∧
    navAccessAllowed "staff" "Admin Activity" = false ∧
    adminActivityAllowed "staff" = false :=
  staff_access_restricted "staff" (by decide)

/-- C10: `log_activity` called with no user in the session returns with the
store untouched (and no error outcome exists); called with a user it
appends exactly one `activity_logs` row carrying that user's username, the
action text and today's date, and leaves every other table unchanged. -/
theorem log_activity_behavior (action today : String) (db : DB) :
    log_activity none action today db = db ∧
    ∀ u : SessionUser,
      (log_activity (some u) action today db).activity_logs =
        db.activity_logs ++
          [{ id := db.next_log_id, username := u.username, action := action, date := today }] ∧
      (log_activity (some u) action today db).products = db.products ∧
      (log_activity (some u) action today db).stock_additions = db.stock_additions ∧
      (log_activity (some u) action today db).customers = db.customers ∧
      (log_activity (some u) action today db).sales = db.sales ∧
      (log_activity (some u) action today db).investments = db.investments :=
  ⟨rfl, fun _ => ⟨rfl, rfl, rfl, rfl, rfl, rfl⟩⟩
